import Mathlib

/-!
# network-tests/ha/main.go

A shallow embedding of the high-availability smoke-test model declared in
`network-tests/ha/main.go`: the embedded-config reader `getConfigData`, the
model literal `m` (scope defaults, regions, hosts, components, actions and
distribution stages with their placeholder callbacks) and the part of `main`
that registers the activation actions.

Go maps are written as association lists in the order of the source literal.
A Go `string` and a `[]byte` hold the same byte sequence, so both are embedded
as `String`; the nil slice is the empty string.  The process environment is a
partial map from names to values.

The lab framework that executes the model (selector resolution, the variable
store, the stage runner) is not part of `main.go`; the definitions that stand
for it are marked `Modelled from the spec:`.
-/

set_option autoImplicit false

namespace Ha

/-! ## Environment and embedded files -/

/-- The process environment: `none` when a variable is not set. -/
abbrev Env := String → Option String

/-- Go `os.Getenv`: the value of the variable, empty when it is not present. -/
def Getenv (env : Env) (key : String) : String :=
  match env key with
  | some v => v
  | none => ""

/-- Go `embed.FS`: `ReadFile` gives the bytes of a file or an error text. -/
structure FS where
  ReadFile : String → Except String String

/-- `getConfigData` of main.go (lines 49-55).  The second component is what
the function hands to `logrus.Errorf`; the function itself has a single
result, the data, and no error result. -/
def getConfigData (configResource : FS) (filePath : String) : String × List String :=
  match configResource.ReadFile ("configs/" ++ filePath) with
  | .ok data => (data, [])
  | .error err =>
      ("", ["Unable to read config data from " ++ filePath ++ ": [" ++ err ++ "]"])

/-! ## Data model -/

/-- Go `model.Variables`: string leaves and nested variable maps. -/
inductive Value where
  | str (s : String)
  | vars (vs : List (String × Value))

/-- Go `model.Variables`. -/
abbrev Variables := List (String × Value)

/-- Go `model.Tags`. -/
abbrev Tags := List String

/-- Go `model.Scope`, with the two fields main.go sets. -/
structure Scope where
  Defaults : Variables := []
  Tags : Tags := []

/-- Go `model.Component`, with the fields main.go sets. -/
structure Component where
  Scope : Scope := {}
  BinaryName : String := ""
  ConfigSrc : String := ""
  ConfigName : String := ""
  PublicIdentity : String := ""

/-- Go `model.Components`. -/
abbrev Components := List (String × Component)

/-- Go `model.Host`, with the fields main.go sets or reads. -/
structure Host where
  Scope : Scope := {}
  InstanceType : String := ""
  PublicIp : String := ""
  Components : Components := []

/-- Go `model.Hosts`. -/
abbrev Hosts := List (String × Host)

/-- Go `model.Region`. -/
structure Region where
  Scope : Scope := {}
  Region : String := ""
  Site : String := ""
  Hosts : Hosts := []

/-- Go `model.Regions`. -/
abbrev Regions := List (String × Region)

/-- What a `*model.Host` gives access to: the host itself, its key, and the
scopes that enclose it (its region and the model). -/
structure HostRef where
  Id : String
  RegionId : String
  host : Host
  regionScope : Scope
  modelScope : Scope

/-- Errors that end a run. -/
inductive RunError where
  | missingVariable (name : String)
  deriving DecidableEq

/-- A placeholder callback, Go `func(*model.Host) string`.  The environment is
read when the callback runs; a callback that aborts the run gives an error. -/
abbrev Callback := Env → HostRef → Except RunError String

/-- `actions.MetricbeatConfig` as main.go fills it. -/
structure MetricbeatConfig where
  ConfigPath : String
  DataPath : String
  LogPath : String
  deriving DecidableEq

/-- `actions.ConsulConfig` as main.go fills it. -/
structure ConsulConfig where
  ServerAddr : String
  ConfigDir : String
  DataPath : String
  LogPath : String
  deriving DecidableEq

/-- The action binders main.go registers, by the constructor call used. -/
inductive ActionBinder where
  | NewBootstrapAction
  | NewStartAction (metricbeat : MetricbeatConfig) (consul : ConsulConfig)
  | StopInParallel (componentSpec : String) (concurrency : Nat)
  | Login (componentSpec : String)
  deriving DecidableEq

/-- The distribution stages main.go uses, by the constructor call used. -/
inductive Stage where
  | DistributeSshKey (hostSpec : String)
  | Locations (hostSpec : String) (paths : List String)
  | DistributeDataWithReplaceCallbacks (hostSpec : String) (data : String)
      (dest : String) (filemode : Nat) (callbacks : List (String × Callback))
  | DistributeData (hostSpec : String) (data : String) (dest : String)
  | RsyncStaged

/-- Go `model.Model`, with the fields the development uses.  `Activation`
holds the names given to `AddActivationActions`. -/
structure Model where
  Id : String := ""
  Scope : Scope := {}
  Regions : Regions := []
  Actions : List (String × ActionBinder) := []
  Distribution : List Stage := []
  Activation : List String := []

/-! ## Variable store -/

/-- Splits a dot-delimited path into its segments; `acc` holds the characters
of the current segment in reverse. -/
def splitPathAux : List Char → List Char → List String
  | acc, [] => [String.mk acc.reverse]
  | acc, c :: cs =>
      if c = '.' then String.mk acc.reverse :: splitPathAux [] cs
      else splitPathAux (c :: acc) cs

/-- Modelled from the spec: the variable store of the lab framework is not in
main.go.  Paths are dot-delimited hierarchical keys. -/
def splitPath (path : String) : List String :=
  splitPathAux [] path.data

/-- The entry of an association list under a key, the first when several. -/
def lookupKey {α : Type} (key : String) : List (String × α) → Option α
  | [] => none
  | (k, v) :: rest => if k = key then some v else lookupKey key rest

/-- Modelled from the spec: the variable store of the lab framework is not in
main.go.  `get(path) -> value | NotFound` inside one scope: every segment but
the last names a nested variable map. -/
def Variables.get : Variables → List String → Option Value
  | _, [] => none
  | vs, [k] => lookupKey k vs
  | vs, k :: k2 :: ks =>
      match lookupKey k vs with
      | some (.vars sub) => Variables.get sub (k2 :: ks)
      | _ => none

/-- Modelled from the spec: the variable store of the lab framework is not in
main.go.  Lookup resolves against the nearest enclosing scope: the host
overrides the region, which overrides the model defaults. -/
def HostRef.GetVariable (h : HostRef) (path : String) : Option Value :=
  match Variables.get h.host.Scope.Defaults (splitPath path) with
  | some v => some v
  | none =>
      match Variables.get h.regionScope.Defaults (splitPath path) with
      | some v => some v
      | none => Variables.get h.modelScope.Defaults (splitPath path)

/-- Modelled from the spec: the variable store of the lab framework is not in
main.go.  `mustGet(path) -> value | fatal`: the string value of the variable,
or the end of the run with an error that names the variable. -/
def HostRef.MustStringVariable (h : HostRef) (name : String) : Except RunError String :=
  match h.GetVariable name with
  | some (.str s) => .ok s
  | _ => .error (.missingVariable name)

/-! ## The model `m` of main.go -/

/-- The `Scope.Defaults` of `m` (lines 60-71). -/
def mDefaults : Variables :=
  [ ("environment", .str "ha-smoketest"),
    ("credentials", .vars
      [ ("ssh", .vars [("username", .str "ubuntu")]),
        ("edge", .vars [("username", .str "admin"), ("password", .str "admin")]) ]) ]

/-- The `Regions` of `m` (lines 79-180). -/
def mRegions : Regions :=
  [ ("us-east-1",
      { Region := "us-east-1"
        Site := "us-east-1a"
        Hosts :=
          [ ("ctrl1",
              { InstanceType := "t3.micro"
                Components :=
                  [ ("ctrl1",
                      { Scope := { Tags := ["ctrl", "spiffe:controller"] }
                        BinaryName := "ziti controller"
                        ConfigSrc := "ctrl.yml.tmpl"
                        ConfigName := "ctrl1.yml"
                        PublicIdentity := "ctrl1" }),
                    ("consul", { BinaryName := "consul" }) ] }),
            ("ctrl2",
              { InstanceType := "t3.micro"
                Components :=
                  [ ("ctrl2",
                      { Scope := { Tags := ["ctrl", "spiffe:controller"] }
                        BinaryName := "ziti controller"
                        ConfigSrc := "ctrl.yml.tmpl"
                        ConfigName := "ctrl2.yml"
                        PublicIdentity := "ctrl2" }),
                    ("consul", { BinaryName := "consul" }) ] }),
            ("router-east",
              { InstanceType := "t2.micro"
                Components :=
                  [ ("router-east",
                      { Scope := { Tags := ["edge-router", "terminator"] }
                        BinaryName := "ziti router"
                        ConfigSrc := "router.yml.tmpl"
                        ConfigName := "router-east.yml"
                        PublicIdentity := "router-east" }),
                    ("echo-server",
                      { Scope := { Tags := ["sdk-app", "service"] }
                        BinaryName := "echo-server"
                        PublicIdentity := "echo-server" }),
                    ("consul", { BinaryName := "consul" }) ] }) ] }),
    ("us-west-2",
      { Region := "us-west-2"
        Site := "us-west-2b"
        Hosts :=
          [ ("ctrl3",
              { InstanceType := "t3.micro"
                Components :=
                  [ ("ctrl3",
                      { Scope := { Tags := ["ctrl", "spiffe:controller"] }
                        BinaryName := "ziti controller"
                        ConfigSrc := "ctrl.yml.tmpl"
                        ConfigName := "ctrl3.yml"
                        PublicIdentity := "ctrl3" }),
                    ("consul", { BinaryName := "consul" }) ] }),
            ("router-west",
              { Scope := { Tags := [] }
                InstanceType := "t2.micro"
                Components :=
                  [ ("router-west",
                      { Scope := { Tags := ["edge-router", "terminator"] }
                        BinaryName := "ziti router"
                        ConfigSrc := "router.yml.tmpl"
                        ConfigName := "router-west.yml"
                        PublicIdentity := "router-west" }),
                    ("echo-client",
                      { Scope := { Tags := ["sdk-app", "client"] }
                        BinaryName := "echo-client"
                        PublicIdentity := "echo-client" }),
                    ("consul", { BinaryName := "consul" }) ] }) ] }) ]

/-- The placeholder map of the metricbeat.yml stage (lines 221-237). -/
def metricbeatCallbacks : List (String × Callback) :=
  [ ("${host}", fun env _ => .ok (Getenv env "ELASTIC_ENDPOINT")),
    ("${user}", fun env _ => .ok (Getenv env "ELASTIC_USERNAME")),
    ("${password}", fun env _ => .ok (Getenv env "ELASTIC_PASSWORD")),
    ("${build_number}", fun env _ => .ok (Getenv env "BUILD_NUMBER")),
    ("${ziti_version}", fun _ h => h.MustStringVariable "ziti_version") ]

/-- The placeholder map of the consul.hcl stage (lines 245-258). -/
def consulCallbacks : List (String × Callback) :=
  [ ("${public_ip}", fun _ h => .ok h.host.PublicIp),
    ("${encryption_key}", fun env _ => .ok (Getenv env "CONSUL_ENCRYPTION_KEY")),
    ("${build_number}", fun env _ => .ok (Getenv env "BUILD_NUMBER")),
    ("${ziti_version}", fun _ h => h.MustStringVariable "ziti_version") ]

/-- The placeholder map of the ziti.hcl stage (lines 265-272). -/
def zitiCallbacks : List (String × Callback) :=
  [ ("${build_number}", fun env _ => .ok (Getenv env "BUILD_NUMBER")),
    ("${ziti_version}", fun _ h => h.MustStringVariable "ziti_version") ]

/-- The `Actions` of `m` (lines 182-197).  `os.Getenv("CONSUL_ENDPOINT")` is
evaluated when the literal is built. -/
def mActions (env : Env) : List (String × ActionBinder) :=
  [ ("bootstrap", .NewBootstrapAction),
    ("start", .NewStartAction
      { ConfigPath := "metricbeat", DataPath := "metricbeat/data", LogPath := "metricbeat/logs" }
      { ServerAddr := Getenv env "CONSUL_ENDPOINT"
        ConfigDir := "consul"
        DataPath := "consul/data"
        LogPath := "consul/log.out" }),
    ("stop", .StopInParallel "*" 15),
    ("login", .Login "#ctrl1") ]

/-- The `Distribution` stages of `m` (lines 213-278).  The templates and
`os.Getenv("CONSUL_AGENT_CERT")` are evaluated when the literal is built; the
callbacks read the environment when they run. -/
def mDistribution (env : Env) (configResource : FS) : List Stage :=
  [ .DistributeSshKey "*",
    .Locations "*" ["logs"],
    .DistributeDataWithReplaceCallbacks "*"
      (getConfigData configResource "metricbeat.yml").1
      "metricbeat/metricbeat.yml" 0o644 metricbeatCallbacks,
    .DistributeDataWithReplaceCallbacks "*"
      (getConfigData configResource "consul.hcl").1
      "consul/consul.hcl" 0o644 consulCallbacks,
    .DistributeDataWithReplaceCallbacks "#ctrl"
      (getConfigData configResource "ziti.hcl").1
      "consul/ziti.hcl" 0o644 zitiCallbacks,
    .DistributeData "*" (Getenv env "CONSUL_AGENT_CERT") "consul/consul-agent-ca.pem",
    .RsyncStaged ]

/-- The model `m` of main.go (lines 57-284), built in the environment `env`
with the embedded files `configResource`. -/
def m (env : Env) (configResource : FS) : Model :=
  { Id := "ha"
    Scope := { Defaults := mDefaults }
    Regions := mRegions
    Actions := mActions env
    Distribution := mDistribution env configResource }

/-- Modelled from the spec: `AddActivationActions` belongs to the lab
framework.  Activation order for a multi-name request is the order given by
the caller. -/
def Model.AddActivationActions (M : Model) (actions : List String) : Model :=
  { M with Activation := M.Activation ++ actions }

/-- The first statement of `main` (line 287); the statements after it hand the
model to the framework. -/
def main (env : Env) (configResource : FS) : Model :=
  (m env configResource).AddActivationActions ["stop", "bootstrap", "start"]

/-! ## Selector resolution -/

/-- A (Host, Component) pair of the topology, with the keys that lead to it. -/
structure Target where
  RegionId : String
  HostId : String
  host : Host
  ComponentId : String
  component : Component

/-- Modelled from the spec: selector resolution belongs to the lab framework.
`"*"` = all components; `"#tag"` = all components whose Scope tags contain
`tag`; `"name"` = exact component id. -/
def selectorMatches (sel : String) (componentId : String) (c : Component) : Bool :=
  if sel = "*" then true
  else
    match sel.data with
    | '#' :: tag => c.Scope.Tags.contains (String.mk tag)
    | _ => componentId == sel

/-- All (Host, Component) pairs of a topology: region, then host, then
component, each in declaration order. -/
def allTargets (regions : Regions) : List Target :=
  regions.flatMap fun r =>
    r.2.Hosts.flatMap fun h =>
      h.2.Components.map fun c =>
        { RegionId := r.1, HostId := h.1, host := h.2, ComponentId := c.1, component := c.2 }

/-- Modelled from the spec: selector resolution belongs to the lab framework.
Given a selector string, return the ordered set of matching (Host, Component)
pairs; the order is that of region, then host, then component declaration. -/
def Model.SelectComponents (M : Model) (sel : String) : List Target :=
  (allTargets M.Regions).filter fun t => selectorMatches sel t.ComponentId t.component

/-- All hosts of a model with their enclosing scopes, region by region in
declaration order. -/
def Model.hostRefs (M : Model) : List HostRef :=
  M.Regions.flatMap fun r =>
    r.2.Hosts.map fun h =>
      { Id := h.1, RegionId := r.1, host := h.2, regionScope := r.2.Scope,
        modelScope := M.Scope }

/-- Modelled from the spec: selector resolution belongs to the lab framework.
The hosts matched by a selector are the hosts of the matching
(Host, Component) pairs, each host once, in declaration order. -/
def Model.SelectHosts (M : Model) (sel : String) : List HostRef :=
  M.hostRefs.filter fun h =>
    h.host.Components.any fun c => selectorMatches sel c.1 c.2

/-- The selectors that the actions and the distribution stages of a model
name, in declaration order. -/
def Model.selectors (M : Model) : List String :=
  (M.Actions.filterMap fun a =>
      match a.2 with
      | .StopInParallel spec _ => some spec
      | .Login spec => some spec
      | _ => none) ++
  (M.Distribution.filterMap fun s =>
      match s with
      | .DistributeSshKey spec => some spec
      | .Locations spec _ => some spec
      | .DistributeDataWithReplaceCallbacks spec _ _ _ _ => some spec
      | .DistributeData spec _ _ => some spec
      | .RsyncStaged => none)

/-! ## Placeholder substitution and the stage runner -/

/-- Literal replacement of the non-overlapping occurrences of `old`, from left
to right; `skip` counts the characters of a matched occurrence that are still
to be dropped. -/
def replaceAux (old new : List Char) : Nat → List Char → List Char
  | _, [] => []
  | skip + 1, _ :: cs => replaceAux old new skip cs
  | 0, c :: cs =>
      if old.isPrefixOf (c :: cs) then new ++ replaceAux old new (old.length - 1) cs
      else c :: replaceAux old new 0 cs

/-- Go `strings.ReplaceAll`.  An empty `old` matches at the beginning of the
string and after each character. -/
def ReplaceAll (s old new : String) : String :=
  if old.data = [] then String.mk (new.data ++ s.data.flatMap fun c => c :: new.data)
  else String.mk (replaceAux old.data new.data 0 s.data)

/-- Modelled from the spec: placeholder substitution belongs to the lab
framework.  Every occurrence of each placeholder token is replaced with the
resolver's output evaluated for that specific host; the tokens are taken in
the order of the map literal, and a resolver that aborts ends the rendering. -/
def render (env : Env) (h : HostRef) : List (String × Callback) → String → Except RunError String
  | [], data => .ok data
  | (token, resolver) :: rest, data =>
      match resolver env h with
      | .error e => .error e
      | .ok v => render env h rest (ReplaceAll data token v)

/-- What a stage does to one host. -/
inductive Effect where
  | DistributeSshKey (host : String)
  | Locations (host : String) (paths : List String)
  | SendData (host : String) (data : String) (dest : String) (filemode : Option Nat)
  | RsyncStaged
  deriving DecidableEq

/-- The outcome of a stage: what it did, and the error that ended it. -/
structure Outcome where
  effects : List Effect
  error : Option RunError
  deriving DecidableEq

/-- Modelled from the spec: the fan-out of a stage over its hosts belongs to
the lab framework.  The hosts are served in selection order and the first
error ends the stage; remote operations themselves are taken to succeed. -/
def forEachHost (f : HostRef → Except RunError (List Effect)) : List HostRef → Outcome
  | [] => { effects := [], error := none }
  | h :: hs =>
      match f h with
      | .error e => { effects := [], error := some e }
      | .ok es =>
          { effects := es ++ (forEachHost f hs).effects
            error := (forEachHost f hs).error }

/-- Modelled from the spec: stage execution belongs to the lab framework.
A data stage produces a per-host rendered payload and delivers the rendered
bytes to the destination path on every host matched by the selector. -/
def Stage.Execute (env : Env) (M : Model) : Stage → Outcome
  | .DistributeSshKey spec =>
      forEachHost (fun h => .ok [Effect.DistributeSshKey h.Id]) (M.SelectHosts spec)
  | .Locations spec paths =>
      forEachHost (fun h => .ok [Effect.Locations h.Id paths]) (M.SelectHosts spec)
  | .DistributeDataWithReplaceCallbacks spec data dest filemode callbacks =>
      forEachHost
        (fun h =>
          match render env h callbacks data with
          | .error e => .error e
          | .ok rendered => .ok [Effect.SendData h.Id rendered dest (some filemode)])
        (M.SelectHosts spec)
  | .DistributeData spec data dest =>
      forEachHost (fun h => .ok [Effect.SendData h.Id data dest none]) (M.SelectHosts spec)
  | .RsyncStaged => { effects := [Effect.RsyncStaged], error := none }

/-- The outcome of a phase: how many stages ran to completion, everything the
phase did, and the error that ended it. -/
structure PhaseResult where
  completed : Nat
  effects : List Effect
  error : Option RunError
  deriving DecidableEq

/-- Modelled from the spec: the phase runner belongs to the lab framework.
It iterates a phase's stage list strictly in declaration order; on the first
error it aborts the remaining stages and reports that error. -/
def runPhase (env : Env) (M : Model) : List Stage → PhaseResult
  | [] => { completed := 0, effects := [], error := none }
  | s :: rest =>
      match (s.Execute env M).error with
      | some e => { completed := 0, effects := (s.Execute env M).effects, error := some e }
      | none =>
          { completed := (runPhase env M rest).completed + 1
            effects := (s.Execute env M).effects ++ (runPhase env M rest).effects
            error := (runPhase env M rest).error }

/-! ## Concrete inputs -/

/-- The environment in which no variable is set. -/
def noEnv : Env := fun _ => none

/-- An embedded file system without files. -/
def noFiles : FS := { ReadFile := fun path => .error ("open " ++ path ++ ": file does not exist") }

/-- An embedded file system that holds short templates for the three
rendered files. -/
def sampleFiles : FS :=
  { ReadFile := fun path =>
      if path = "configs/metricbeat.yml" then .ok "hosts: ${host} v${ziti_version}"
      else if path = "configs/consul.hcl" then .ok "bind = ${public_ip}"
      else if path = "configs/ziti.hcl" then .ok "build ${build_number}"
      else .error ("open " ++ path ++ ": file does not exist") }

/-- The model `m` after a bootstrap that bound `ziti_version` at model level. -/
def mBound (env : Env) (configResource : FS) : Model :=
  { m env configResource with
    Scope := { Defaults := ("ziti_version", .str "1.1.3") :: mDefaults } }

/-- The keys (region, host, component) of the targets a selector resolves to. -/
def targetKeys (ts : List Target) : List (String × String × String) :=
  ts.map fun t => (t.RegionId, t.HostId, t.ComponentId)

/-- The placeholder tokens of a placeholder map. -/
def tokens (callbacks : List (String × Callback)) : List String :=
  callbacks.map Prod.fst

/-- The three placeholder maps of `m.Distribution`: metricbeat.yml,
consul.hcl, ziti.hcl. -/
def placeholderMaps : List (List (String × Callback)) :=
  [metricbeatCallbacks, consulCallbacks, zitiCallbacks]

/-- Alphabetical (byte-wise lexicographic) order on strings. -/
def alphaLe : List Char → List Char → Bool
  | [], _ => true
  | _ :: _, [] => false
  | a :: as, b :: bs =>
      if a.toNat < b.toNat then true
      else if b.toNat < a.toNat then false
      else alphaLe as bs

/-- A list of names in alphabetical order. -/
def sortAlphabetical (names : List String) : List String :=
  names.insertionSort fun a b => alphaLe a.data b.data = true

/-- The environment variable behind each environment-backed placeholder
token of `m.Distribution`. -/
def envBacked : List (String × String) :=
  [ ("${host}", "ELASTIC_ENDPOINT"),
    ("${user}", "ELASTIC_USERNAME"),
    ("${password}", "ELASTIC_PASSWORD"),
    ("${build_number}", "BUILD_NUMBER"),
    ("${encryption_key}", "CONSUL_ENCRYPTION_KEY") ]

/-- A host without variables of its own, for concrete checks. -/
def sampleHost (ip : String) (vars : Variables) : HostRef :=
  { Id := "h", RegionId := "r", host := { PublicIp := ip, Scope := { Defaults := vars } },
    regionScope := {}, modelScope := { Defaults := mDefaults } }

/-- An environment in which only `BUILD_NUMBER` is set. -/
def buildEnv : Env := fun k => if k = "BUILD_NUMBER" then some "42" else none

/-- What C5 says of one token and its resolver. -/
def ReadsOwnVariable (env : Env) (h : HostRef) (tc : String × Callback) : Prop :=
  ((∃ var, (tc.1, var) ∈ envBacked) ∨ tc.1 = "${ziti_version}" ∨ tc.1 = "${public_ip}") ∧
  (∀ var, (tc.1, var) ∈ envBacked →
    (∀ v, env var = some v → tc.2 env h = .ok v) ∧
    (env var = none → tc.2 env h = .ok "") ∧
    ∀ (env2 : Env) (h2 : HostRef), env2 var = env var → tc.2 env2 h2 = tc.2 env h) ∧
  (tc.1 = "${ziti_version}" →
    (∀ v, h.GetVariable "ziti_version" = some (.str v) → tc.2 env h = .ok v) ∧
    (h.GetVariable "ziti_version" = none →
      tc.2 env h = .error (.missingVariable "ziti_version")) ∧
    ∀ (env2 : Env) (h2 : HostRef),
      h2.GetVariable "ziti_version" = h.GetVariable "ziti_version" →
        tc.2 env2 h2 = tc.2 env h) ∧
  (tc.1 = "${public_ip}" → tc.2 env h = .ok h.host.PublicIp)

/-- The environment inputs main.go reads with `os.Getenv`. -/
def envInputs : List String :=
  [ "CONSUL_ENDPOINT", "ELASTIC_ENDPOINT", "ELASTIC_USERNAME", "ELASTIC_PASSWORD",
    "BUILD_NUMBER", "CONSUL_ENCRYPTION_KEY", "CONSUL_AGENT_CERT" ]

/-! # Theorems -/

/-! ## Topology -/

/-- C1: resolving "#ctrl" against `m` gives exactly the components ctrl1,
ctrl2, ctrl3 on the hosts of the same names, region us-east-1 before
us-west-2, and nothing on router-east or router-west and no consul,
echo-server or echo-client component. -/
theorem ctrl_selector_resolves_to_controllers (env : Env) (configResource : FS) :
    targetKeys ((m env configResource).SelectComponents "#ctrl") =
        [ ("us-east-1", "ctrl1", "ctrl1"), ("us-east-1", "ctrl2", "ctrl2"),
          ("us-west-2", "ctrl3", "ctrl3") ] ∧
      ∀ t ∈ (m env configResource).SelectComponents "#ctrl",
        t.HostId ≠ "router-east" ∧ t.HostId ≠ "router-west" ∧
          t.ComponentId ≠ "consul" ∧ t.ComponentId ≠ "echo-server" ∧
          t.ComponentId ≠ "echo-client" := by
  have h : (m env configResource).SelectComponents "#ctrl" =
      (allTargets mRegions).filter fun t => selectorMatches "#ctrl" t.ComponentId t.component := rfl
  rw [h]
  decide

/-- C7: in `m` the region keys are pairwise distinct, the host keys are
pairwise distinct within every region, and the component keys are pairwise
distinct within every host. -/
theorem model_keys_distinct (env : Env) (configResource : FS) :
    ((m env configResource).Regions.map Prod.fst).Nodup ∧
      (∀ r ∈ (m env configResource).Regions, (r.2.Hosts.map Prod.fst).Nodup) ∧
      ∀ r ∈ (m env configResource).Regions, ∀ h ∈ r.2.Hosts,
        (h.2.Components.map Prod.fst).Nodup := by
  have h : (m env configResource).Regions = mRegions := rfl
  rw [h]
  decide

/-- C10, evaluated on the model as declared: the login action carries the
selector "#ctrl1"; read as a tag selector it resolves to no component, since
no component has the tag ctrl1, while the component id "ctrl1" is the
controller on host ctrl1; the other two selectors in use, "*" and "#ctrl",
resolve to twelve and to three components. -/
theorem login_selector_matches_nothing :
    lookupKey "login" (m noEnv noFiles).Actions = some (.Login "#ctrl1") ∧
      "#ctrl1" ∈ (m noEnv noFiles).selectors ∧
      targetKeys ((m noEnv noFiles).SelectComponents "#ctrl1") = [] ∧
      targetKeys ((m noEnv noFiles).SelectComponents "ctrl1") =
        [("us-east-1", "ctrl1", "ctrl1")] ∧
      (∀ sel ∈ (m noEnv noFiles).selectors, sel = "*" ∨ sel = "#ctrl" ∨ sel = "#ctrl1") ∧
      ((m noEnv noFiles).SelectComponents "*").length = 12 ∧
      ((m noEnv noFiles).SelectComponents "#ctrl").length = 3 := by
  decide

/-- C8: the activation actions registered by `main` are "stop", "bootstrap",
"start" in the order the caller gave them; that order is neither the
alphabetical one nor the declaration order of `m.Actions` (bootstrap, start,
stop, login), and every registered name is a key of `m.Actions`. -/
theorem activation_actions_in_caller_order (env : Env) (configResource : FS) :
    (main env configResource).Activation = ["stop", "bootstrap", "start"] ∧
      (m env configResource).Actions.map Prod.fst = ["bootstrap", "start", "stop", "login"] ∧
      (main env configResource).Activation ≠
        sortAlphabetical (main env configResource).Activation ∧
      (main env configResource).Activation ≠
        ((m env configResource).Actions.map Prod.fst).filter
          (fun a => a ∈ (main env configResource).Activation) ∧
      ∀ name ∈ (main env configResource).Activation,
        name ∈ (m env configResource).Actions.map Prod.fst := by
  have ha : (main env configResource).Activation = ["stop", "bootstrap", "start"] := rfl
  have hk : (m env configResource).Actions.map Prod.fst =
      ["bootstrap", "start", "stop", "login"] := rfl
  rw [ha, hk]
  decide

/-- C6: in each of the three placeholder maps every token is "${" ++ name ++
"}" for a name without '$', '{' or '}', and of two distinct tokens of one map
neither occurs inside the other. -/
theorem placeholder_tokens_framed :
    ∀ callbacks ∈ placeholderMaps,
      (∀ token ∈ tokens callbacks, ∃ name : List Char,
        token.data = '$' :: '{' :: name ++ ['}'] ∧
          '$' ∉ name ∧ '{' ∉ name ∧ '}' ∉ name) ∧
      ∀ t1 ∈ tokens callbacks, ∀ t2 ∈ tokens callbacks,
        t1 ≠ t2 → ¬ t1.data <:+: t2.data := by
  intro callbacks hc
  simp only [placeholderMaps, List.mem_cons, List.mem_singleton, List.not_mem_nil, or_false] at hc
  rcases hc with rfl | rfl | rfl
  · refine ⟨?_, by decide⟩
    intro token ht
    simp only [tokens, metricbeatCallbacks, List.map, List.mem_cons, List.mem_singleton,
      List.not_mem_nil, or_false] at ht
    rcases ht with rfl | rfl | rfl | rfl | rfl
    · exact ⟨"host".data, by decide⟩
    · exact ⟨"user".data, by decide⟩
    · exact ⟨"password".data, by decide⟩
    · exact ⟨"build_number".data, by decide⟩
    · exact ⟨"ziti_version".data, by decide⟩
  · refine ⟨?_, by decide⟩
    intro token ht
    simp only [tokens, consulCallbacks, List.map, List.mem_cons, List.mem_singleton,
      List.not_mem_nil, or_false] at ht
    rcases ht with rfl | rfl | rfl | rfl
    · exact ⟨"public_ip".data, by decide⟩
    · exact ⟨"encryption_key".data, by decide⟩
    · exact ⟨"build_number".data, by decide⟩
    · exact ⟨"ziti_version".data, by decide⟩
  · refine ⟨?_, by decide⟩
    intro token ht
    simp only [tokens, zitiCallbacks, List.map, List.mem_cons, List.mem_singleton,
      List.not_mem_nil, or_false] at ht
    rcases ht with rfl | rfl
    · exact ⟨"build_number".data, by decide⟩
    · exact ⟨"ziti_version".data, by decide⟩

/-- C6 at a concrete input: in the ziti.hcl map, "${build_number}" does not
occur inside "${ziti_version}". -/
theorem placeholder_tokens_framed_witness :
    ¬ "${build_number}".data <:+: "${ziti_version}".data :=
  (placeholder_tokens_framed zitiCallbacks (by simp [placeholderMaps])).2
    "${build_number}" (by decide) "${ziti_version}" (by decide) (by decide)

/-! ## Embedded configuration -/

/-- C9: `getConfigData p` reads the embedded file "configs/" ++ p and nothing
else; when the file exists the result is exactly its bytes, and when the read
fails the result is the empty (nil) data, the failure being logged and not
returned. -/
theorem getConfigData_reads_or_empty (configResource : FS) (p : String) :
    (∀ data, configResource.ReadFile ("configs/" ++ p) = .ok data →
        getConfigData configResource p = (data, [])) ∧
      (∀ err, configResource.ReadFile ("configs/" ++ p) = .error err →
        (getConfigData configResource p).1 = "" ∧
          (getConfigData configResource p).2.length = 1) ∧
      ∀ other : FS, other.ReadFile ("configs/" ++ p) = configResource.ReadFile ("configs/" ++ p) →
        getConfigData other p = getConfigData configResource p := by
  refine ⟨?_, ?_, ?_⟩
  · intro data h
    simp [getConfigData, h]
  · intro err h
    simp [getConfigData, h]
  · intro other h
    simp [getConfigData, h]

/-- C9 at concrete inputs: an existing template and a missing file. -/
theorem getConfigData_reads_or_empty_witness :
    getConfigData sampleFiles "consul.hcl" = ("bind = ${public_ip}", []) ∧
      (getConfigData noFiles "consul.hcl").1 = "" :=
  ⟨(getConfigData_reads_or_empty sampleFiles "consul.hcl").1 _ rfl,
   ((getConfigData_reads_or_empty noFiles "consul.hcl").2.1
      "open configs/consul.hcl: file does not exist" rfl).1⟩

/-! ## Placeholder resolvers -/

theorem Getenv_of_some {env : Env} {var v : String} (h : env var = some v) :
    Getenv env var = v := by
  simp [Getenv, h]

theorem Getenv_of_none {env : Env} {var : String} (h : env var = none) :
    Getenv env var = "" := by
  simp [Getenv, h]

theorem Getenv_congr {env env2 : Env} {var : String} (h : env2 var = env var) :
    Getenv env2 var = Getenv env var := by
  simp [Getenv, h]

theorem MustStringVariable_of_str {h : HostRef} {name v : String}
    (hv : h.GetVariable name = some (.str v)) : h.MustStringVariable name = .ok v := by
  simp [HostRef.MustStringVariable, hv]

theorem MustStringVariable_of_none {h : HostRef} {name : String}
    (hv : h.GetVariable name = none) :
    h.MustStringVariable name = .error (.missingVariable name) := by
  simp [HostRef.MustStringVariable, hv]

theorem MustStringVariable_congr {h h2 : HostRef} {name : String}
    (hv : h2.GetVariable name = h.GetVariable name) :
    h2.MustStringVariable name = h.MustStringVariable name := by
  simp [HostRef.MustStringVariable, hv]

theorem envCallback_readsOwn (env : Env) (h : HostRef) (token var : String)
    (hmem : (token, var) ∈ envBacked)
    (huniq : ∀ var2, (token, var2) ∈ envBacked → var2 = var)
    (h1 : token ≠ "${ziti_version}") (h2 : token ≠ "${public_ip}") :
    ReadsOwnVariable env h (token, fun env _ => .ok (Getenv env var)) := by
  refine ⟨Or.inl ⟨var, hmem⟩, ?_, fun hz => absurd hz h1, fun hp => absurd hp h2⟩
  intro var2 hv
  have e := huniq var2 hv
  subst e
  exact ⟨fun v hs => by simp [Getenv_of_some hs], fun hn => by simp [Getenv_of_none hn],
    fun env2 _ he => by simp [Getenv_congr he]⟩

theorem zitiVersionCallback_readsOwn (env : Env) (h : HostRef) :
    ReadsOwnVariable env h ("${ziti_version}", fun _ h => h.MustStringVariable "ziti_version") := by
  refine ⟨Or.inr (Or.inl rfl), ?_, ?_, ?_⟩
  · intro var hv
    have hne : ∀ p ∈ envBacked, p.1 ≠ "${ziti_version}" := by decide
    exact absurd rfl (hne _ hv)
  · intro _
    exact ⟨fun v hs => MustStringVariable_of_str hs, fun hn => MustStringVariable_of_none hn,
      fun _ h2 he => MustStringVariable_congr he⟩
  · intro hp
    exact absurd hp (by decide)

/-- The resolvers of the three placeholder maps come in three shapes: a read
of one environment variable, the `ziti_version` lookup, the host's PublicIp. -/
theorem callback_shape : ∀ callbacks ∈ placeholderMaps, ∀ tc ∈ callbacks,
    (∃ var, (tc.1, var) ∈ envBacked ∧ tc.2 = fun env _ => .ok (Getenv env var)) ∨
    (tc.1 = "${ziti_version}" ∧ tc.2 = fun _ h => h.MustStringVariable "ziti_version") ∨
    (tc.1 = "${public_ip}" ∧ tc.2 = fun _ h => .ok h.host.PublicIp) := by
  intro callbacks hc tc ht
  simp only [placeholderMaps, List.mem_cons, List.mem_singleton, List.not_mem_nil, or_false] at hc
  rcases hc with rfl | rfl | rfl
  · simp only [metricbeatCallbacks, List.mem_cons, List.mem_singleton, List.not_mem_nil,
      or_false] at ht
    rcases ht with rfl | rfl | rfl | rfl | rfl
    · exact Or.inl ⟨_, by decide, rfl⟩
    · exact Or.inl ⟨_, by decide, rfl⟩
    · exact Or.inl ⟨_, by decide, rfl⟩
    · exact Or.inl ⟨_, by decide, rfl⟩
    · exact Or.inr (Or.inl ⟨rfl, rfl⟩)
  · simp only [consulCallbacks, List.mem_cons, List.mem_singleton, List.not_mem_nil,
      or_false] at ht
    rcases ht with rfl | rfl | rfl | rfl
    · exact Or.inr (Or.inr ⟨rfl, rfl⟩)
    · exact Or.inl ⟨_, by decide, rfl⟩
    · exact Or.inl ⟨_, by decide, rfl⟩
    · exact Or.inr (Or.inl ⟨rfl, rfl⟩)
  · simp only [zitiCallbacks, List.mem_cons, List.mem_singleton, List.not_mem_nil,
      or_false] at ht
    rcases ht with rfl | rfl
    · exact Or.inl ⟨_, by decide, rfl⟩
    · exact Or.inr (Or.inl ⟨rfl, rfl⟩)

theorem envBacked_tokens : ∀ p ∈ envBacked,
    p.1 ≠ "${ziti_version}" ∧ p.1 ≠ "${public_ip}" ∧ ∀ q ∈ envBacked, p.1 = q.1 → q.2 = p.2 := by
  decide

theorem publicIpCallback_readsOwn (env : Env) (h : HostRef) :
    ReadsOwnVariable env h ("${public_ip}", fun _ h => .ok h.host.PublicIp) := by
  refine ⟨Or.inr (Or.inr rfl), ?_, fun hz => absurd hz (by decide), fun _ => rfl⟩
  intro var hv
  exact absurd rfl (envBacked_tokens _ hv).2.1

/-- C5: every resolver of the three placeholder maps is environment-backed,
"${ziti_version}" or "${public_ip}".  An environment-backed resolver returns
its variable's value when set and the empty string when unset, and its result
is fixed by that one variable; the "${ziti_version}" resolver returns the
host's `ziti_version` when present, fails when it is missing, and its result
is fixed by that one variable; "${public_ip}" returns the host's PublicIp. -/
theorem resolvers_read_their_own_variable (env : Env) (h : HostRef) :
    ∀ callbacks ∈ placeholderMaps, ∀ tc ∈ callbacks, ReadsOwnVariable env h tc := by
  intro callbacks hc tc ht
  obtain ⟨token, resolver⟩ := tc
  rcases callback_shape callbacks hc _ ht with ⟨var, hm, hr⟩ | ⟨h1, hr⟩ | ⟨h1, hr⟩
  · simp only at hm hr
    subst hr
    exact envCallback_readsOwn env h token var hm
      (fun var2 hm2 => (envBacked_tokens _ hm).2.2 _ hm2 rfl)
      (envBacked_tokens _ hm).1 (envBacked_tokens _ hm).2.1
  · simp only at h1 hr
    subst h1 hr
    exact zitiVersionCallback_readsOwn env h
  · simp only at h1 hr
    subst h1 hr
    exact publicIpCallback_readsOwn env h

/-- C5 at concrete inputs: `BUILD_NUMBER` set to "42", everything else unset,
on a host that has no `ziti_version`. -/
theorem resolvers_read_their_own_variable_witness :
    (∀ v, buildEnv "BUILD_NUMBER" = some v →
        (fun (env : Env) (_ : HostRef) => (Except.ok (Getenv env "BUILD_NUMBER") :
          Except RunError String)) buildEnv (sampleHost "10.0.0.1" []) = .ok v) ∧
      (fun (_ : Env) (h : HostRef) => h.MustStringVariable "ziti_version")
          buildEnv (sampleHost "10.0.0.1" []) = .error (.missingVariable "ziti_version") :=
  ⟨((resolvers_read_their_own_variable buildEnv (sampleHost "10.0.0.1" [])
      zitiCallbacks (by simp [placeholderMaps])
      ("${build_number}", fun env _ => .ok (Getenv env "BUILD_NUMBER"))
      (by simp [zitiCallbacks])).2.1 "BUILD_NUMBER" (by decide)).1,
   ((resolvers_read_their_own_variable buildEnv (sampleHost "10.0.0.1" [])
      zitiCallbacks (by simp [placeholderMaps])
      ("${ziti_version}", fun _ h => h.MustStringVariable "ziti_version")
      (by simp [zitiCallbacks])).2.2.1 rfl).2.1 rfl⟩

/-! ## Rendering per host -/

theorem render_congr (env : Env) (h h2 : HostRef) :
    ∀ (callbacks : List (String × Callback)) (data : String),
      (∀ tc ∈ callbacks, tc.2 env h = tc.2 env h2) →
        render env h callbacks data = render env h2 callbacks data
  | [], _, _ => rfl
  | (token, resolver) :: rest, data, hc => by
      have h0 : resolver env h = resolver env h2 := hc (token, resolver) (List.mem_cons_self _ _)
      simp only [render, h0]
      cases resolver env h2 with
      | error e => rfl
      | ok v => exact render_congr env h h2 rest _ fun tc ht => hc tc (List.mem_cons_of_mem _ ht)

theorem callback_same_host (env : Env) (h h2 : HostRef)
    (hip : h.host.PublicIp = h2.host.PublicIp)
    (hv : h.GetVariable "ziti_version" = h2.GetVariable "ziti_version") :
    ∀ callbacks ∈ placeholderMaps, ∀ tc ∈ callbacks, tc.2 env h = tc.2 env h2 := by
  intro callbacks hc tc ht
  rcases callback_shape callbacks hc tc ht with ⟨var, _, hr⟩ | ⟨_, hr⟩ | ⟨_, hr⟩
  · rw [hr]
  · rw [hr]
    exact MustStringVariable_congr hv
  · rw [hr]
    exact congrArg Except.ok hip

/-- C2: in a fixed environment, what each resolver of the three placeholder
maps produces for a host is fixed by that host's PublicIp and its
`ziti_version` variable, and so is the rendered payload; replacing any other
host of the list of hosts leaves the value rendered for a host unchanged; the
"${public_ip}" resolver returns exactly the host's PublicIp. -/
theorem rendering_depends_only_on_own_host (env : Env) :
    ∀ callbacks ∈ placeholderMaps,
      (∀ tc ∈ callbacks,
        (∀ h h2 : HostRef, h.host.PublicIp = h2.host.PublicIp →
          h.GetVariable "ziti_version" = h2.GetVariable "ziti_version" →
            tc.2 env h = tc.2 env h2) ∧
        (∀ (hosts : List HostRef) (i j : Nat) (other : HostRef), i ≠ j →
          ((hosts.set j other).map (tc.2 env))[i]? = (hosts.map (tc.2 env))[i]?) ∧
        (tc.1 = "${public_ip}" → ∀ h : HostRef, tc.2 env h = .ok h.host.PublicIp)) ∧
      (∀ (data : String) (h h2 : HostRef), h.host.PublicIp = h2.host.PublicIp →
        h.GetVariable "ziti_version" = h2.GetVariable "ziti_version" →
          render env h callbacks data = render env h2 callbacks data) ∧
      ∀ (data : String) (hosts : List HostRef) (i j : Nat) (other : HostRef), i ≠ j →
        ((hosts.set j other).map fun h => render env h callbacks data)[i]? =
          (hosts.map fun h => render env h callbacks data)[i]? := by
  intro callbacks hc
  refine ⟨fun tc ht => ⟨?_, ?_, ?_⟩, ?_, ?_⟩
  · intro h h2 hip hv
    exact callback_same_host env h h2 hip hv callbacks hc tc ht
  · intro hosts i j other hij
    simp [List.getElem?_map, List.getElem?_set_ne (Ne.symm hij)]
  · intro hp h
    rcases callback_shape callbacks hc tc ht with ⟨var, hm, _⟩ | ⟨h1, _⟩ | ⟨_, hr⟩
    · exact absurd hp ((envBacked_tokens _ hm).2.1)
    · rw [h1] at hp
      exact absurd hp (by decide)
    · rw [hr]
  · intro data h h2 hip hv
    exact render_congr env h h2 callbacks data
      (callback_same_host env h h2 hip hv callbacks hc)
  · intro data hosts i j other hij
    simp [List.getElem?_map, List.getElem?_set_ne (Ne.symm hij)]

/-- C2 at concrete inputs: two hosts with the same PublicIp and no
`ziti_version` of their own render the same consul.hcl payload. -/
theorem rendering_depends_only_on_own_host_witness :
    render buildEnv (sampleHost "10.0.0.1" []) consulCallbacks "bind = ${public_ip}" =
      render buildEnv { sampleHost "10.0.0.1" [] with Id := "other" } consulCallbacks
        "bind = ${public_ip}" :=
  (rendering_depends_only_on_own_host buildEnv consulCallbacks
    (by simp [placeholderMaps])).2.1 "bind = ${public_ip}" _ _ rfl rfl

/-! ## The distribution phase -/

theorem forEachHost_ok (g : HostRef → Effect) :
    ∀ hosts : List HostRef,
      forEachHost (fun h => .ok [g h]) hosts = { effects := hosts.map g, error := none }
  | [] => rfl
  | h :: hs => by
      simp [forEachHost, forEachHost_ok g hs]

theorem forEachHost_error_eq (f : HostRef → Except RunError (List Effect)) (E : RunError)
    (hf : ∀ h e, f h = .error e → e = E) :
    ∀ (hosts : List HostRef) (e : RunError), (forEachHost f hosts).error = some e → e = E
  | [], e, he => by simp [forEachHost] at he
  | h :: hs, e, he => by
      cases hfh : f h with
      | error e2 =>
          simp only [forEachHost, hfh, Option.some.injEq] at he
          rw [← he]
          exact hf h e2 hfh
      | ok es =>
          simp only [forEachHost, hfh] at he
          exact forEachHost_error_eq f E hf hs e he

theorem forEachHost_fails (f : HostRef → Except RunError (List Effect)) (E : RunError)
    (hf : ∀ h e, f h = .error e → e = E) :
    ∀ hosts : List HostRef, (∃ h ∈ hosts, f h = .error E) →
      (forEachHost f hosts).error = some E
  | [], hex => by
      obtain ⟨h, hm, _⟩ := hex
      simp at hm
  | h :: hs, hex => by
      cases hfh : f h with
      | error e2 =>
          simp only [forEachHost, hfh]
          rw [hf h e2 hfh]
      | ok es =>
          simp only [forEachHost, hfh]
          apply forEachHost_fails f E hf hs
          obtain ⟨h2, hm, he⟩ := hex
          rcases List.mem_cons.mp hm with rfl | hm2
          · rw [hfh] at he
            cases he
          · exact ⟨h2, hm2, he⟩

theorem forEachHost_effects (f : HostRef → Except RunError (List Effect)) (P : Effect → Prop)
    (hf : ∀ h es, f h = .ok es → ∀ e ∈ es, P e) :
    ∀ hosts : List HostRef, ∀ e ∈ (forEachHost f hosts).effects, P e
  | [], e, he => by simp [forEachHost] at he
  | h :: hs, e, he => by
      cases hfh : f h with
      | error e2 => simp [forEachHost, hfh] at he
      | ok es =>
          simp only [forEachHost, hfh, List.mem_append] at he
          rcases he with he | he
          · exact hf h es hfh e he
          · exact forEachHost_effects f P hf hs e he

theorem render_error_eq (env : Env) (h : HostRef) (E : RunError) :
    ∀ (callbacks : List (String × Callback)) (data : String),
      (∀ tc ∈ callbacks, ∀ e, tc.2 env h = .error e → e = E) →
        ∀ e, render env h callbacks data = .error e → e = E
  | [], _, _, e, he => by simp [render] at he
  | (token, resolver) :: rest, data, hc, e, he => by
      cases hr : resolver env h with
      | error e2 =>
          simp only [render, hr, Except.error.injEq] at he
          rw [← he]
          exact hc (token, resolver) (List.mem_cons_self _ _) e2 hr
      | ok v =>
          simp only [render, hr] at he
          exact render_error_eq env h E rest _
            (fun tc ht => hc tc (List.mem_cons_of_mem _ ht)) e he

theorem MustStringVariable_error {h : HostRef} {name : String} {e : RunError}
    (he : h.MustStringVariable name = .error e) : e = .missingVariable name := by
  unfold HostRef.MustStringVariable at he
  split at he
  · cases he
  · simp only [Except.error.injEq] at he
    exact he.symm

theorem callback_error_eq (env : Env) (h : HostRef) :
    ∀ callbacks ∈ placeholderMaps, ∀ tc ∈ callbacks, ∀ e,
      tc.2 env h = .error e → e = .missingVariable "ziti_version" := by
  intro callbacks hc tc ht e he
  rcases callback_shape callbacks hc tc ht with ⟨var, _, hr⟩ | ⟨_, hr⟩ | ⟨_, hr⟩
  · rw [hr] at he
    cases he
  · rw [hr] at he
    exact MustStringVariable_error he
  · rw [hr] at he
    cases he

theorem dataStage_error_eq (env : Env) (M : Model) (spec data dest : String) (filemode : Nat) :
    ∀ callbacks ∈ placeholderMaps, ∀ e,
      ((Stage.DistributeDataWithReplaceCallbacks spec data dest filemode callbacks).Execute
        env M).error = some e → e = .missingVariable "ziti_version" := by
  intro callbacks hc e he
  refine forEachHost_error_eq _ _ ?_ _ e he
  intro h e2 h2
  cases hr : render env h callbacks data with
  | error e3 =>
      simp only [hr, Except.error.injEq] at h2
      rw [← h2]
      exact render_error_eq env h _ callbacks data (callback_error_eq env h callbacks hc) e3 hr
  | ok v => simp [hr] at h2

theorem runPhase_error_eq (env : Env) (M : Model) (E : RunError) :
    ∀ stages : List Stage,
      (∀ s ∈ stages, ∀ e, (s.Execute env M).error = some e → e = E) →
        ∀ e, (runPhase env M stages).error = some e → e = E
  | [], _, e, he => by simp [runPhase] at he
  | s :: rest, hs, e, he => by
      cases hx : (s.Execute env M).error with
      | some e2 =>
          simp only [runPhase, hx, Option.some.injEq] at he
          rw [← he]
          exact hs s (List.mem_cons_self _ _) e2 hx
      | none =>
          simp only [runPhase, hx] at he
          exact runPhase_error_eq env M E rest
            (fun s2 h2 => hs s2 (List.mem_cons_of_mem _ h2)) e he

/-- The only error a run of the distribution stages of `m` can end with is the
missing `ziti_version`. -/
theorem distribution_error_eq (env envRun : Env) (configResource : FS) (M : Model) (e : RunError)
    (he : (runPhase envRun M (m env configResource).Distribution).error = some e) :
    e = .missingVariable "ziti_version" := by
  refine runPhase_error_eq envRun M _ _ ?_ e he
  intro s hs e2 h2
  simp only [m, mDistribution, List.mem_cons, List.mem_singleton, List.not_mem_nil,
    or_false] at hs
  rcases hs with rfl | rfl | rfl | rfl | rfl | rfl | rfl
  · simp [Stage.Execute, forEachHost_ok] at h2
  · simp [Stage.Execute, forEachHost_ok] at h2
  · exact dataStage_error_eq envRun M _ _ _ _ _ (by simp [placeholderMaps]) e2 h2
  · exact dataStage_error_eq envRun M _ _ _ _ _ (by simp [placeholderMaps]) e2 h2
  · exact dataStage_error_eq envRun M _ _ _ _ _ (by simp [placeholderMaps]) e2 h2
  · simp [Stage.Execute, forEachHost_ok] at h2
  · simp [Stage.Execute] at h2

theorem render_metricbeat_missing (env : Env) (h : HostRef) (data : String)
    (hv : h.GetVariable "ziti_version" = none) :
    render env h metricbeatCallbacks data = .error (.missingVariable "ziti_version") := by
  simp [render, metricbeatCallbacks, MustStringVariable_of_none hv]

/-- C3 as stated fails: with none of the seven environment inputs set, and
`ziti_version` bound, the distribution stages of `m` all run, files are sent
to the hosts with the empty string in place of the absent values, and no error
is reported. -/
theorem absent_env_inputs_raise_no_error :
    (∀ var ∈ envInputs, noEnv var = none) ∧
      (runPhase noEnv (mBound noEnv sampleFiles)
        (mBound noEnv sampleFiles).Distribution).error = none ∧
      (runPhase noEnv (mBound noEnv sampleFiles)
        (mBound noEnv sampleFiles).Distribution).completed = 7 ∧
      Effect.SendData "ctrl1" "hosts:  v1.1.3" "metricbeat/metricbeat.yml" (some 0o644) ∈
        (runPhase noEnv (mBound noEnv sampleFiles)
          (mBound noEnv sampleFiles).Distribution).effects ∧
      Effect.SendData "ctrl1" "" "consul/consul-agent-ca.pem" none ∈
        (runPhase noEnv (mBound noEnv sampleFiles)
          (mBound noEnv sampleFiles).Distribution).effects := by
  decide

/-- C3, amended: each of the seven environment inputs is read with
`os.Getenv`, so when it is absent the empty string stands in its place: the
start action's `ServerAddr` is empty (CONSUL_ENDPOINT), the payload of the
consul-agent-ca.pem stage is empty (CONSUL_AGENT_CERT), the resolver of the
placeholder it backs returns the empty string (the other five); building the
model cannot fail, and an error that ends a run of the distribution stages
names `ziti_version`, never the absent input. -/
theorem absent_env_input_becomes_empty (env envRun : Env) (configResource : FS) :
    ∀ var ∈ envInputs,
      (var = "CONSUL_ENDPOINT" ∨ var = "CONSUL_AGENT_CERT" ∨ var ∈ envBacked.map Prod.snd) ∧
      (var = "CONSUL_ENDPOINT" → env var = none →
        lookupKey "start" (m env configResource).Actions =
          some (.NewStartAction
            { ConfigPath := "metricbeat", DataPath := "metricbeat/data",
              LogPath := "metricbeat/logs" }
            { ServerAddr := "", ConfigDir := "consul", DataPath := "consul/data",
              LogPath := "consul/log.out" })) ∧
      (var = "CONSUL_AGENT_CERT" → env var = none →
        Stage.DistributeData "*" "" "consul/consul-agent-ca.pem" ∈
          (m env configResource).Distribution) ∧
      (∀ callbacks ∈ placeholderMaps, ∀ tc ∈ callbacks, (tc.1, var) ∈ envBacked →
        envRun var = none → ∀ h : HostRef, tc.2 envRun h = .ok "") ∧
      ∀ (M : Model) (e : RunError),
        (runPhase envRun M (m env configResource).Distribution).error = some e →
          e = .missingVariable "ziti_version" ∧ e ≠ .missingVariable var := by
  intro var hvar
  refine ⟨?_, ?_, ?_, ?_, ?_⟩
  · revert var
    decide
  · intro hv hn
    subst hv
    simp [m, mActions, lookupKey, Getenv_of_none hn]
  · intro hv hn
    subst hv
    simp [m, mDistribution, Getenv_of_none hn]
  · intro callbacks hc tc ht hm hn h
    rcases callback_shape callbacks hc tc ht with ⟨var2, hm2, hr⟩ | ⟨h1, _⟩ | ⟨h1, _⟩
    · have e := (envBacked_tokens _ hm).2.2 _ hm2 rfl
      simp only at e
      subst e
      rw [hr]
      simp [Getenv_of_none hn]
    · exact absurd h1 (envBacked_tokens _ hm).1
    · exact absurd h1 (envBacked_tokens _ hm).2.1
  · intro M e he
    have h1 := distribution_error_eq env envRun configResource M e he
    refine ⟨h1, ?_⟩
    rw [h1]
    intro hc
    injection hc with hc
    rw [← hc] at hvar
    revert hvar
    decide

/-- C3, amended, at a concrete input: without CONSUL_ENDPOINT the start action
is built with an empty server address. -/
theorem absent_env_input_becomes_empty_witness :
    lookupKey "start" (m noEnv noFiles).Actions =
      some (.NewStartAction
        { ConfigPath := "metricbeat", DataPath := "metricbeat/data",
          LogPath := "metricbeat/logs" }
        { ServerAddr := "", ConfigDir := "consul", DataPath := "consul/data",
          LogPath := "consul/log.out" }) :=
  (absent_env_input_becomes_empty noEnv noEnv noFiles "CONSUL_ENDPOINT" (by decide)).2.1 rfl rfl

/-- C4 as stated fails: on the model as declared, where `ziti_version` is
missing for every host, the first two distribution stages have run on all five
hosts when the run aborts. -/
theorem two_stages_run_before_abort :
    (∀ h ∈ (m noEnv noFiles).hostRefs, (h.GetVariable "ziti_version").isNone = true) ∧
      runPhase noEnv (m noEnv noFiles) (m noEnv noFiles).Distribution =
        { completed := 2
          effects :=
            [ .DistributeSshKey "ctrl1", .DistributeSshKey "ctrl2",
              .DistributeSshKey "router-east", .DistributeSshKey "ctrl3",
              .DistributeSshKey "router-west",
              .Locations "ctrl1" ["logs"], .Locations "ctrl2" ["logs"],
              .Locations "router-east" ["logs"], .Locations "ctrl3" ["logs"],
              .Locations "router-west" ["logs"] ]
          error := some (.missingVariable "ziti_version") } := by
  decide

/-- C4, amended: when `ziti_version` is missing for a host matched by "*", a
run of the distribution stages of `m` aborts inside the third stage, the
metricbeat.yml stage, whose resolver is the first to perform the lookup:
DistributeSshKey("*") and Locations("*", "logs") have run on every matched
host, whatever else was done is a delivery of metricbeat.yml, no later stage
has started, and the reported error names `ziti_version`. -/
theorem missing_ziti_version_aborts_third_stage (env envRun : Env) (configResource : FS)
    (M : Model) (hD : M.Distribution = (m env configResource).Distribution)
    (hmiss : ∃ h ∈ M.SelectHosts "*", h.GetVariable "ziti_version" = none) :
    (runPhase envRun M M.Distribution).completed = 2 ∧
      (runPhase envRun M M.Distribution).error = some (.missingVariable "ziti_version") ∧
      ∃ sent : List Effect,
        (runPhase envRun M M.Distribution).effects =
          (M.SelectHosts "*").map (fun h => Effect.DistributeSshKey h.Id) ++
            ((M.SelectHosts "*").map (fun h => Effect.Locations h.Id ["logs"]) ++ sent) ∧
        ∀ e ∈ sent, ∃ host data,
          e = Effect.SendData host data "metricbeat/metricbeat.yml" (some 0o644) := by
  have h1 : (Stage.DistributeSshKey "*").Execute envRun M =
      { effects := (M.SelectHosts "*").map (fun h => Effect.DistributeSshKey h.Id),
        error := none } := by
    simp [Stage.Execute, forEachHost_ok]
  have h2 : (Stage.Locations "*" ["logs"]).Execute envRun M =
      { effects := (M.SelectHosts "*").map (fun h => Effect.Locations h.Id ["logs"]),
        error := none } := by
    simp [Stage.Execute, forEachHost_ok]
  have h3 : ((Stage.DistributeDataWithReplaceCallbacks "*"
      (getConfigData configResource "metricbeat.yml").1 "metricbeat/metricbeat.yml" 0o644
      metricbeatCallbacks).Execute envRun M).error = some (.missingVariable "ziti_version") := by
    apply forEachHost_fails
    · intro h e he
      cases hr : render envRun h metricbeatCallbacks
          (getConfigData configResource "metricbeat.yml").1 with
      | error e3 =>
          simp only [hr, Except.error.injEq] at he
          rw [← he]
          exact render_error_eq envRun h _ metricbeatCallbacks _
            (callback_error_eq envRun h metricbeatCallbacks (by simp [placeholderMaps])) e3 hr
      | ok v => simp [hr] at he
    · obtain ⟨h, hm, hv⟩ := hmiss
      exact ⟨h, hm, by simp [render_metricbeat_missing envRun h _ hv]⟩
  have h4 : ∀ e ∈ ((Stage.DistributeDataWithReplaceCallbacks "*"
      (getConfigData configResource "metricbeat.yml").1 "metricbeat/metricbeat.yml" 0o644
      metricbeatCallbacks).Execute envRun M).effects, ∃ host data,
        e = Effect.SendData host data "metricbeat/metricbeat.yml" (some 0o644) := by
    apply forEachHost_effects
    intro h es hes e he
    cases hr : render envRun h metricbeatCallbacks
        (getConfigData configResource "metricbeat.yml").1 with
    | error e3 => simp [hr] at hes
    | ok v =>
        simp only [hr, Except.ok.injEq] at hes
        rw [← hes] at he
        exact ⟨h.Id, v, by simpa using he⟩
  rw [hD]
  refine ⟨?_, ?_, _, ?_, h4⟩
  · simp [m, mDistribution, runPhase, h1, h2, h3]
  · simp [m, mDistribution, runPhase, h1, h2, h3]
  · simp [m, mDistribution, runPhase, h1, h2, h3]

/-- C4, amended, on the model as declared, where no host has `ziti_version`. -/
theorem missing_ziti_version_aborts_third_stage_witness :
    (runPhase noEnv (m noEnv noFiles) (m noEnv noFiles).Distribution).completed = 2 ∧
      (runPhase noEnv (m noEnv noFiles) (m noEnv noFiles).Distribution).error =
        some (.missingVariable "ziti_version") := by
  have h0 : ∀ h ∈ (m noEnv noFiles).SelectHosts "*",
      (h.GetVariable "ziti_version").isNone = true := by decide
  have h1 : 0 < ((m noEnv noFiles).SelectHosts "*").length := by decide
  obtain ⟨h, hm⟩ := List.exists_mem_of_length_pos h1
  have h2 := missing_ziti_version_aborts_third_stage noEnv noEnv noFiles (m noEnv noFiles) rfl
    ⟨h, hm, Option.isNone_iff_eq_none.mp (h0 h hm)⟩
  exact ⟨h2.1, h2.2.1⟩

end Ha
